import Mathlib

/-!
Verification development for the `checkstyle-to-sarif` converter.

The development shallowly embeds the two core components of the repository:
the Checkstyle XML report parser (`src/parser.ts`, mapping the tokenizer's
attributed tree into the intermediate `CheckstyleReport` model) and the SARIF
projector (`src/converter.ts`, mapping a `CheckstyleReport` into a `SarifLog`).
The XML tokenizer itself is an external collaborator and is taken as a
function parameter; JavaScript numbers are modelled as exact rationals
(IEEE-754 rounding of string literals is not applied), and JavaScript objects
with optional keys are modelled as structures with `Option` fields, where an
absent key and a key explicitly set to `undefined` are both `Option.none`.
-/

namespace CheckstyleToSarif

/-- ASCII lower-casing of one character (the fragment of JavaScript
`toLowerCase` exercised by the code: severity keywords and rule identifiers). -/
def asciiLowerChar (c : Char) : Char :=
  if c.isUpper then Char.ofNat (c.toNat + 32) else c

/-- ASCII lower-casing of a string, character by character. -/
def strToLower (s : String) : String := String.mk (s.data.map asciiLowerChar)

/-- Model of a JavaScript number as produced by `Number(...)`: NaN, a signed
infinity, or a finite value kept as an exact rational. -/
inductive JSNum where
  | nan : JSNum
  | posInf : JSNum
  | negInf : JSNum
  | num (q : ℚ) : JSNum
deriving DecidableEq, Repr

/-- The JavaScript comparison `x > 0` on a number (false for NaN). -/
def JSNum.isPos : JSNum → Bool
  | .nan => false
  | .posInf => true
  | .negInf => false
  | .num q => decide (0 < q)

/-- Code points treated as whitespace by JavaScript `String.prototype.trim`
and by the whitespace-skipping prelude of `Number(string)`: WhiteSpace
(TAB, VT, FF, SP, NBSP, ZWNBSP and the Zs category) plus LineTerminator. -/
def jsWhitespaceCodes : List ℕ :=
  [9, 10, 11, 12, 13, 32, 0xA0, 0x1680, 0x2000, 0x2001, 0x2002, 0x2003, 0x2004,
   0x2005, 0x2006, 0x2007, 0x2008, 0x2009, 0x200A, 0x2028, 0x2029, 0x202F,
   0x205F, 0x3000, 0xFEFF]

/-- Whether a character is JavaScript whitespace. -/
def jsIsWhitespace (c : Char) : Bool := jsWhitespaceCodes.contains c.toNat

/-- Model of JavaScript `String.prototype.trim`. -/
def jsTrim (s : String) : String :=
  String.mk (((s.data.dropWhile jsIsWhitespace).reverse.dropWhile jsIsWhitespace).reverse)

/-- Value of a decimal digit character. -/
def decDigitVal (c : Char) : ℕ := c.toNat - 48

/-- Whether a character is a hexadecimal digit. -/
def isHexDigitChar (c : Char) : Bool :=
  c.isDigit || (decide (97 ≤ c.toNat) && decide (c.toNat ≤ 102)) ||
    (decide (65 ≤ c.toNat) && decide (c.toNat ≤ 70))

/-- Value of a hexadecimal digit character. -/
def hexDigitVal (c : Char) : ℕ :=
  if c.isDigit then c.toNat - 48
  else if 97 ≤ c.toNat then c.toNat - 87
  else c.toNat - 55

/-- Whether a character is an octal digit. -/
def isOctalDigitChar (c : Char) : Bool := c.isDigit && decide (c.toNat ≤ 55)

/-- Whether a character is a binary digit. -/
def isBinaryDigitChar (c : Char) : Bool := c == '0' || c == '1'

/-- Value of a digit string in a given base (most significant digit first). -/
def natOfDigits (base : ℕ) (dval : Char → ℕ) (ds : List Char) : ℕ :=
  ds.foldl (fun a c => a * base + dval c) 0

/-- Parse the optional exponent part of a decimal literal; `none` means the
remaining characters are not a valid (possibly empty) exponent part. -/
def parseExponentPart : List Char → Option ℤ
  | [] => some 0
  | c :: rest =>
    if c = 'e' ∨ c = 'E' then
      match rest with
      | '+' :: ds =>
        if ds ≠ [] ∧ ds.all Char.isDigit then some (natOfDigits 10 decDigitVal ds) else none
      | '-' :: ds =>
        if ds ≠ [] ∧ ds.all Char.isDigit then some (-(natOfDigits 10 decDigitVal ds : ℤ))
        else none
      | ds =>
        if ds ≠ [] ∧ ds.all Char.isDigit then some (natOfDigits 10 decDigitVal ds) else none
    else none

/-- Scale a rational by a power of ten. -/
def applyExponent (q : ℚ) (e : ℤ) : ℚ :=
  if 0 ≤ e then q * (10 : ℚ) ^ e.toNat else q / (10 : ℚ) ^ (-e).toNat

/-- Parse an unsigned decimal literal (`DecimalDigits [. DecimalDigits] [Exp]`
or `. DecimalDigits [Exp]`); `none` means not a valid literal (NaN). -/
def parseUnsignedDecimal (cs : List Char) : Option ℚ :=
  let intPart := cs.takeWhile Char.isDigit
  let rest := cs.dropWhile Char.isDigit
  match intPart, rest with
  | [], '.' :: rest2 =>
    let frac := rest2.takeWhile Char.isDigit
    let rest3 := rest2.dropWhile Char.isDigit
    if frac = [] then none
    else
      match parseExponentPart rest3 with
      | some e =>
        some (applyExponent ((natOfDigits 10 decDigitVal frac : ℚ) / (10 : ℚ) ^ frac.length) e)
      | none => none
  | [], _ => none
  | _, '.' :: rest2 =>
    let frac := rest2.takeWhile Char.isDigit
    let rest3 := rest2.dropWhile Char.isDigit
    match parseExponentPart rest3 with
    | some e =>
      some (applyExponent
        ((natOfDigits 10 decDigitVal intPart : ℚ) +
          (natOfDigits 10 decDigitVal frac : ℚ) / (10 : ℚ) ^ frac.length) e)
    | none => none
  | _, _ =>
    match parseExponentPart rest with
    | some e => some (applyExponent (natOfDigits 10 decDigitVal intPart : ℚ) e)
    | none => none

/-- Parse a signed decimal literal, including the `Infinity` forms. -/
def parseSignedDecimal (cs : List Char) : JSNum :=
  let stripped : Bool × List Char :=
    match cs with
    | '+' :: t => (false, t)
    | '-' :: t => (true, t)
    | t => (false, t)
  let neg := stripped.1
  let body := stripped.2
  if body = "Infinity".data then (if neg then .negInf else .posInf)
  else
    match parseUnsignedDecimal body with
    | some q => .num (if neg then -q else q)
    | none => .nan

/-- Model of JavaScript `Number(string)`: trim, empty string is `0`,
hex/octal/binary prefixed literals (unsigned), otherwise a signed decimal
literal or `Infinity`; anything else is NaN. Values are exact rationals. -/
def jsNumberOfString (s : String) : JSNum :=
  match (jsTrim s).data with
  | [] => .num 0
  | '0' :: c :: rest =>
    if c = 'x' ∨ c = 'X' then
      if rest ≠ [] ∧ rest.all isHexDigitChar then .num (natOfDigits 16 hexDigitVal rest)
      else .nan
    else if c = 'o' ∨ c = 'O' then
      if rest ≠ [] ∧ rest.all isOctalDigitChar then .num (natOfDigits 8 decDigitVal rest)
      else .nan
    else if c = 'b' ∨ c = 'B' then
      if rest ≠ [] ∧ rest.all isBinaryDigitChar then .num (natOfDigits 2 decDigitVal rest)
      else .nan
    else parseSignedDecimal ('0' :: c :: rest)
  | cs => parseSignedDecimal cs

/-! ## Intermediate Checkstyle report model (`src/types/checkstyle.ts`) -/

/-- The `CheckstyleSeverity` union type. -/
inductive CheckstyleSeverity where
  | error
  | warning
  | info
  | ignore
deriving DecidableEq, Repr

/-- An individual `<error>` element of the intermediate model. The `column`
key is optional; `line` is a JavaScript number. -/
structure CheckstyleError where
  line : JSNum
  column : Option JSNum
  severity : CheckstyleSeverity
  message : String
  source : String
deriving DecidableEq, Repr

/-- A `<file>` element of the intermediate model. -/
structure CheckstyleFile where
  name : String
  error : List CheckstyleError
deriving DecidableEq, Repr

/-- The root of the intermediate model. -/
structure CheckstyleReport where
  version : Option String
  file : List CheckstyleFile
deriving DecidableEq, Repr

/-! ## Report parser (`src/parser.ts`) -/

/-- Raw `<error>` attributes as delivered by the tokenizer. The tokenizer is
configured with `parseAttributeValue: false`, so attribute values are strings. -/
structure RawCheckstyleError where
  line : Option String
  column : Option String
  severity : Option String
  message : Option String
  source : Option String
deriving DecidableEq, Repr

/-- Raw `<file>` element. The tokenizer is configured to always deliver the
`error` children as an array when present. -/
structure RawCheckstyleFile where
  name : Option String
  error : Option (List RawCheckstyleError)
deriving DecidableEq, Repr

/-- Raw `<checkstyle>` root element. -/
structure RawCheckstyle where
  version : Option String
  file : Option (List RawCheckstyleFile)
deriving DecidableEq, Repr

/-- Result of tokenizing: the root object, whose `checkstyle` key is present
exactly when the document's root element is `<checkstyle>`. -/
structure RawCheckstyleRoot where
  checkstyle : Option RawCheckstyle
deriving DecidableEq, Repr

/-- The failure modes of `parseCheckstyleXml`: empty input, a tokenizer
failure (wrapped, original cause kept), or a missing `<checkstyle>` root. -/
inductive ParseError where
  | emptyInput
  | xmlError (cause : String)
  | invalidRoot
deriving DecidableEq, Repr

/-- `normalizeCheckstyleSeverity` from `src/parser.ts`: lower-case the string
and match it against the known severities (`warn` is a synonym of `warning`);
anything else collapses to `warning`. The lower-casing model is ASCII, which
agrees with JavaScript `toLowerCase` on every string relevant to the match. -/
def normalizeCheckstyleSeverity (severity : String) : CheckstyleSeverity :=
  let s := strToLower severity
  if s = "error" then .error
  else if s = "warning" then .warning
  else if s = "warn" then .warning
  else if s = "info" then .info
  else if s = "ignore" then .ignore
  else .warning

/-- Mapping of one raw `<error>` element to the intermediate model, following
the body of the `map` in `parseCheckstyleXml`: `line := Number(attr ?? 1)`
with NaN defaulting to `1`; `column` kept only when present and not NaN;
`severity` normalized with default `warning`; `message`/`source` default `""`. -/
def parseRawError (rawError : RawCheckstyleError) : CheckstyleError :=
  let line : JSNum :=
    match rawError.line with
    | none => .num 1
    | some s => jsNumberOfString s
  let column : Option JSNum := rawError.column.map jsNumberOfString
  let severity := normalizeCheckstyleSeverity (rawError.severity.getD "warning")
  let message := rawError.message.getD ""
  let source := rawError.source.getD ""
  { line := if line = .nan then .num 1 else line
    column :=
      match column with
      | some c => if c = .nan then none else some c
      | none => none
    severity := severity
    message := message
    source := source }

/-- Mapping of one raw `<file>` element: `name` defaults to `""`, absent
`error` children become the empty list. (The source's defensive filter of
non-object children is the identity here, since the raw model only contains
attribute-bearing elements.) -/
def parseRawFile (rawFile : RawCheckstyleFile) : CheckstyleFile :=
  { name := rawFile.name.getD ""
    error := (rawFile.error.getD []).map parseRawError }

/-- `parseCheckstyleXml` from `src/parser.ts`, with the off-the-shelf XML
tokenizer abstracted as the `tokenize` argument (it either fails with a
message or yields the raw attributed tree). The guard `!xmlContent ||
xmlContent.trim() === ''` is the first disjunct below (`""` is the only falsy
string) and rejects before the tokenizer result is consulted. -/
def parseCheckstyleXml (xmlContent : String)
    (tokenize : String → Except String RawCheckstyleRoot) :
    Except ParseError CheckstyleReport :=
  if xmlContent = "" ∨ jsTrim xmlContent = "" then .error .emptyInput
  else
    match tokenize xmlContent with
    | .error err => .error (.xmlError err)
    | .ok parsed =>
      match parsed.checkstyle with
      | none => .error .invalidRoot
      | some root =>
        .ok { version := root.version
              file := (root.file.getD []).map parseRawFile }

/-! ## SARIF output model (`src/types/sarif.ts`) -/

/-- SARIF result levels. -/
inductive ResultLevel where
  | error
  | warning
  | note
  | none
deriving DecidableEq, Repr

/-- A SARIF rule descriptor as emitted by the converter (`id`, optional
`helpUri`). -/
structure ReportingDescriptor where
  id : String
  helpUri : Option String
deriving DecidableEq, Repr

/-- A SARIF artifact location. -/
structure ArtifactLocation where
  uri : String
deriving DecidableEq, Repr

/-- A SARIF region; `startColumn` is an optional key. -/
structure Region where
  startLine : JSNum
  startColumn : Option JSNum
deriving DecidableEq, Repr

/-- A SARIF physical location. -/
structure PhysicalLocation where
  artifactLocation : ArtifactLocation
  region : Region
deriving DecidableEq, Repr

/-- A SARIF location. -/
structure Location where
  physicalLocation : PhysicalLocation
deriving DecidableEq, Repr

/-- A SARIF message object. -/
structure MessageObj where
  text : String
deriving DecidableEq, Repr

/-- A SARIF result. `ruleIndex` is a JavaScript number (the second converter
variant computes it with `indexOf`, whose JavaScript form can be `-1`). -/
structure Result where
  ruleId : String
  ruleIndex : ℤ
  level : ResultLevel
  message : MessageObj
  locations : List Location
deriving DecidableEq, Repr

/-- The SARIF tool driver; `version` and `rules` are optional keys. -/
structure ToolDriver where
  name : String
  version : Option String
  informationUri : String
  rules : Option (List ReportingDescriptor)
deriving DecidableEq, Repr

/-- The SARIF tool object. -/
structure Tool where
  driver : ToolDriver
deriving DecidableEq, Repr

/-- A SARIF run. -/
structure Run where
  tool : Tool
  results : List Result
  columnKind : String
deriving DecidableEq, Repr

/-- The SARIF log root; `schema` models the JSON `$schema` key. -/
structure SarifLog where
  version : String
  schema : String
  runs : List Run
deriving DecidableEq, Repr

/-! ## SARIF projector (`src/converter.ts`) -/

/-- The fixed `$schema` URI emitted by the converter. -/
def SARIF_SCHEMA : String :=
  "https://docs.oasis-open.org/sarif/sarif/v2.1.0/cos02/schemas/sarif-schema-2.1.0.json"

/-- `mapSeverityToLevel` from `src/converter.ts` (identical in both variants).
The TypeScript `default: 'warning'` branch is unreachable over the closed
severity union and has no counterpart over the four-constructor type. -/
def mapSeverityToLevel : CheckstyleSeverity → ResultLevel
  | .error => .error
  | .warning => .warning
  | .info => .note
  | .ignore => .none

/-- Whether a (already backslash-normalized) path matches the Windows
drive-letter test `/^[a-zA-Z]:\//`. -/
def startsWithDriveLetter (s : String) : Bool :=
  match s.data with
  | a :: b :: c :: _ => a.isAlpha && b == ':' && c == '/'
  | _ => false

/-- Whether a string starts with the character `/`. -/
def startsWithSlash (s : String) : Bool :=
  match s.data with
  | a :: _ => a == '/'
  | [] => false

/-- `pathToUri` from `src/converter.ts` (identical in both variants):
backslashes become forward slashes, a drive-letter path gets `file:///`, an
absolute path gets `file://`, and a relative path is returned unchanged. -/
def pathToUri (filePath : String) : String :=
  let normalized := String.mk (filePath.data.map (fun c => if c = '\\' then '/' else c))
  if startsWithDriveLetter normalized then "file:///" ++ normalized
  else if startsWithSlash normalized then "file://" ++ normalized
  else normalized

/-- JavaScript `String.prototype.split` restricted to a single-character
separator, on character lists. -/
def splitOnChar (sep : Char) : List Char → List (List Char)
  | [] => [[]]
  | c :: cs =>
    match splitOnChar sep cs with
    | [] => [[]]
    | g :: gs => if c = sep then [] :: g :: gs else (c :: g) :: gs

/-- `extractRuleId` from `src/converter.ts` (both variants are the same
function, written with the branches in opposite order): an empty (falsy)
source yields `"UnknownRule"`, otherwise the last element of the `.`-split
(the `?? source` fallback of `parts[parts.length - 1]` is modelled by `getD`,
and like in the source it can never fire because a split is never empty). -/
def extractRuleId (source : String) : String :=
  if source = "" then "UnknownRule"
  else
    let parts := (splitOnChar '.' source.data).map String.mk
    parts.getLast?.getD source

/-- The documentation URL template used for `helpUri`, applied to the
lower-cased rule identifier (ASCII lower-casing model). -/
def helpUriFor (ruleId : String) : String :=
  "https://checkstyle.org/checks/" ++ strToLower ruleId ++ ".html"

/-- Lookup in the insertion-ordered association-list model of a JavaScript
`Map` (`Map.get`). -/
def mapGet {α : Type} (m : List (String × α)) (k : String) : Option α :=
  match m with
  | [] => none
  | (k', v) :: rest => if k' = k then some v else mapGet rest k

/-- Update in the insertion-ordered association-list model of a JavaScript
`Map` (`Map.set`): an existing key keeps its position, a new key is appended. -/
def mapSet {α : Type} (m : List (String × α)) (k : String) (v : α) :
    List (String × α) :=
  match m with
  | [] => [(k, v)]
  | (k', v') :: rest => if k' = k then (k', v) :: rest else (k', v') :: mapSet rest k v

/-- JavaScript `Array.prototype.indexOf` (`-1` when absent). -/
def jsIndexOf (l : List String) (k : String) : ℤ :=
  match l with
  | [] => -1
  | a :: rest =>
    if a = k then 0
    else
      let r := jsIndexOf rest k
      if r = -1 then -1 else r + 1

/-- State threaded through the error loop of the first `convertToSarif`
variant: the `ruleIndexMap` and `ruleMap` maps and the `results` array. -/
structure ConvState where
  ruleIndexMap : List (String × ℤ)
  ruleMap : List (String × ReportingDescriptor)
  results : List Result
deriving DecidableEq, Repr

/-- Loop body of the first `convertToSarif` variant (`src/converter.ts`
lines 70–113): derive the rule identifier and level, register the rule when
unseen (recording `ruleMap.size` as its index), build the region —
`startColumn` only for a defined column `> 0` — and push the result. -/
def processError (fileUri : String) (st : ConvState) (error : CheckstyleError) :
    ConvState :=
  let ruleId := extractRuleId error.source
  let level := mapSeverityToLevel error.severity
  let registered : ConvState × ℤ :=
    match mapGet st.ruleIndexMap ruleId with
    | some i => (st, i)
    | none =>
      let rule : ReportingDescriptor :=
        { id := ruleId
          helpUri := if error.source = "" then none else some (helpUriFor ruleId) }
      let i : ℤ := st.ruleMap.length
      ({ st with
          ruleIndexMap := mapSet st.ruleIndexMap ruleId i
          ruleMap := mapSet st.ruleMap ruleId rule }, i)
  let st' := registered.1
  let ruleIndex := registered.2
  let region : Region :=
    { startLine := error.line
      startColumn :=
        match error.column with
        | some c => if c.isPos then some c else none
        | none => none }
  let location : Location :=
    { physicalLocation := { artifactLocation := { uri := fileUri }, region := region } }
  let result : Result :=
    { ruleId := ruleId
      ruleIndex := ruleIndex
      level := level
      message := { text := error.message }
      locations := [location] }
  { st' with results := st'.results ++ [result] }

/-- File loop of the first `convertToSarif` variant. -/
def processFile (st : ConvState) (file : CheckstyleFile) : ConvState :=
  file.error.foldl (processError (pathToUri file.name)) st

/-- The first `convertToSarif` variant (`src/converter.ts` lines 61–142, the
map-with-counter implementation). The driver `version` is the spread
`toolVersion === undefined ? (checkstyle.version === undefined ? {} :
{version: checkstyle.version}) : {version: toolVersion}`, and `rules` is
included only when at least one rule was collected. -/
def convertToSarif (checkstyle : CheckstyleReport) (toolVersion : Option String) :
    SarifLog :=
  let st := checkstyle.file.foldl processFile ⟨[], [], []⟩
  let rules := st.ruleMap.map Prod.snd
  let run : Run :=
    { tool :=
        { driver :=
            { name := "Checkstyle"
              version :=
                match toolVersion with
                | none =>
                  match checkstyle.version with
                  | none => none
                  | some v => some v
                | some v => some v
              informationUri := "https://checkstyle.org"
              rules := if rules.length > 0 then some rules else none } }
      results := st.results
      columnKind := "utf16CodeUnits" }
  { version := "2.1.0", schema := SARIF_SCHEMA, runs := [run] }

/-- State threaded through the error loop of the second `convertToSarif`
variant, which keeps only `ruleMap` and recomputes indices with `indexOf`. -/
structure ConvState2 where
  ruleMap : List (String × ReportingDescriptor)
  results : List Result
deriving DecidableEq, Repr

/-- Loop body of the second `convertToSarif` variant (`src/converter.ts`
lines 211–249): register the rule when `!ruleMap.has(ruleId)`, then compute
`ruleIndex` as `[...ruleMap.keys()].indexOf(ruleId)` on the updated map. -/
def processError2 (fileUri : String) (st : ConvState2) (error : CheckstyleError) :
    ConvState2 :=
  let ruleId := extractRuleId error.source
  let level := mapSeverityToLevel error.severity
  let ruleMap :=
    if (mapGet st.ruleMap ruleId).isSome then st.ruleMap
    else
      mapSet st.ruleMap ruleId
        { id := ruleId
          helpUri := if error.source = "" then none else some (helpUriFor ruleId) }
  let ruleIndex : ℤ := jsIndexOf (ruleMap.map Prod.fst) ruleId
  let location : Location :=
    { physicalLocation :=
        { artifactLocation := { uri := fileUri }
          region :=
            { startLine := error.line
              startColumn :=
                match error.column with
                | some c => if c.isPos then some c else none
                | none => none } } }
  let result : Result :=
    { ruleId := ruleId
      ruleIndex := ruleIndex
      level := level
      message := { text := error.message }
      locations := [location] }
  { ruleMap := ruleMap, results := st.results ++ [result] }

/-- File loop of the second `convertToSarif` variant. -/
def processFile2 (st : ConvState2) (file : CheckstyleFile) : ConvState2 :=
  file.error.foldl (processError2 (pathToUri file.name)) st

/-- The second `convertToSarif` variant (`src/converter.ts` lines 203–275,
the indexOf-based implementation). Its driver spreads
`...(toolVersion !== undefined ? {version: toolVersion} : {})` and then
`...(checkstyle.version !== undefined ? {version: checkstyle.version} : {})`,
so the later spread — the report's own version — wins when both are present.
`rules: undefined` is modelled as the absent key. -/
def convertToSarif2 (checkstyle : CheckstyleReport) (toolVersion : Option String) :
    SarifLog :=
  let st := checkstyle.file.foldl processFile2 ⟨[], []⟩
  let rules := st.ruleMap.map Prod.snd
  let run : Run :=
    { tool :=
        { driver :=
            { name := "Checkstyle"
              version :=
                match checkstyle.version with
                | some v => some v
                | none =>
                  match toolVersion with
                  | some v => some v
                  | none => none
              informationUri := "https://checkstyle.org"
              rules := if rules.length > 0 then some rules else none } }
      results := st.results
      columnKind := "utf16CodeUnits" }
  { version := "2.1.0", schema := SARIF_SCHEMA, runs := [run] }

/-! ## Statement-side vocabulary

Definitions used to state properties of the converter: the file-then-error
traversal list, first-seen deduplication, and the per-error result shape the
loop is expected to emit. -/

/-- The file-then-error traversal of a report: every error paired with its
file's artifact URI, files in order, errors in order within a file. -/
def errsOf (r : CheckstyleReport) : List (String × CheckstyleError) :=
  (r.file.map (fun f => f.error.map (fun e => (pathToUri f.name, e)))).flatten

/-- The derived rule identifier of a traversal entry. -/
def idOf (p : String × CheckstyleError) : String := extractRuleId p.2.source

/-- First-seen deduplication of a list: keeps the first occurrence of every
element, in order of first appearance. -/
def firstSeen (l : List String) : List String :=
  l.foldl (fun acc a => if a ∈ acc then acc else acc ++ [a]) []

/-- A placeholder run used only as the default of `runOf`. -/
def defaultRun : Run :=
  { tool := { driver := { name := "", version := none, informationUri := "", rules := none } }
    results := []
    columnKind := "" }

/-- The single run of an emitted SARIF log. -/
def runOf (log : SarifLog) : Run := log.runs.headD defaultRun

/-- Association of each list element with its position, starting at `n`. -/
def positionsFrom (n : ℤ) : List String → List (String × ℤ)
  | [] => []
  | k :: ks => (k, n) :: positionsFrom (n + 1) ks

/-- The result the converter loop emits for one traversal entry, given the
rule index it assigns. -/
def mkSpecResult (p : String × CheckstyleError) (ruleIndex : ℤ) : Result :=
  { ruleId := idOf p
    ruleIndex := ruleIndex
    level := mapSeverityToLevel p.2.severity
    message := { text := p.2.message }
    locations :=
      [{ physicalLocation :=
          { artifactLocation := { uri := p.1 }
            region :=
              { startLine := p.2.line
                startColumn :=
                  match p.2.column with
                  | some c => if c.isPos then some c else none
                  | none => none } } }] }

/-- The rule descriptor the converter registers for one traversal entry. -/
def mkSpecDescr (p : String × CheckstyleError) : ReportingDescriptor :=
  { id := idOf p
    helpUri := if p.2.source = "" then none else some (helpUriFor (idOf p)) }

/-- One step of the converter loop over the flattened traversal. -/
def stepPair (st : ConvState) (p : String × CheckstyleError) : ConvState :=
  processError p.1 st p.2

/-! ## Concrete inputs used by counterexamples and witnesses -/

/-- A report carrying its own version, used to exhibit the version-precedence
divergence between the two `convertToSarif` variants. -/
def versionClashReport : CheckstyleReport :=
  { version := some "10.3.4"
    file := [{ name := "Foo.java"
               error := [{ line := .num 1
                           column := some (.num 1)
                           severity := .error
                           message := "Test"
                           source := "com.Check" }] }] }

/-- A raw tree with a line attribute `"0"`, a column attribute `"-5"` and a
line attribute `"0x10"`, used to probe the parser's numeric coercion. -/
def nonPositiveRawRoot : RawCheckstyleRoot :=
  { checkstyle :=
      some { version := none
             file :=
               some [{ name := some "Foo.java"
                       error :=
                         some [{ line := some "0"
                                 column := some "-5"
                                 severity := none
                                 message := none
                                 source := none }
                               , { line := some "0x10"
                                   column := none
                                   severity := none
                                   message := none
                                   source := none }] }] } }

/-- A tokenizer stub returning `nonPositiveRawRoot` for any input. -/
def nonPositiveTokenize : String → Except String RawCheckstyleRoot :=
  fun _ => .ok nonPositiveRawRoot

/-- A tokenizer stub that fails with a fixed message. -/
def failingTokenize : String → Except String RawCheckstyleRoot :=
  fun _ => .error "boom"

/-- A tokenizer stub whose root object has no `checkstyle` key. -/
def wrongRootTokenize : String → Except String RawCheckstyleRoot :=
  fun _ => .ok { checkstyle := none }

/-- A small report used by witnesses. -/
def witnessReport : CheckstyleReport :=
  { version := some "9.0"
    file := [{ name := "Foo.java"
               error := [{ line := .num 1
                           column := some (.num 1)
                           severity := .error
                           message := "Test error"
                           source := "com.example.TestCheck" }
                         , { line := .num 2
                             column := some (.num 0)
                             severity := .info
                             message := "No col"
                             source := "com.example.TestCheck" }] }
              , { name := "Bar.java", error := [] }] }

/-- Final converter-loop state of the first variant over a report's
file-then-error traversal. -/
def finalState (r : CheckstyleReport) : ConvState :=
  (errsOf r).foldl stepPair ⟨[], [], []⟩

/-! ## Supporting lemmas -/

theorem firstSeen_append_singleton (l : List String) (a : String) :
    firstSeen (l ++ [a]) = if a ∈ firstSeen l then firstSeen l else firstSeen l ++ [a] := by
  simp [firstSeen, List.foldl_append]

theorem mem_firstSeen {a : String} {l : List String} : a ∈ firstSeen l ↔ a ∈ l := by
  induction l using List.reverseRecOn with
  | nil => simp [firstSeen]
  | append_singleton l b ih =>
    rw [firstSeen_append_singleton]
    by_cases hb : b ∈ firstSeen l
    · rw [if_pos hb]
      constructor
      · intro h
        exact List.mem_append.mpr (Or.inl (ih.mp h))
      · intro h
        rcases List.mem_append.mp h with h | h
        · exact ih.mpr h
        · rw [List.mem_singleton] at h
          exact h ▸ hb
    · rw [if_neg hb]
      simp [ih]

theorem nodup_firstSeen (l : List String) : (firstSeen l).Nodup := by
  induction l using List.reverseRecOn with
  | nil => simp [firstSeen]
  | append_singleton l b ih =>
    rw [firstSeen_append_singleton]
    by_cases hb : b ∈ firstSeen l
    · rwa [if_pos hb]
    · rw [if_neg hb]
      simpa [List.nodup_append] using ⟨ih, hb⟩

theorem jsIndexOf_nonneg {l : List String} {k : String} (h : k ∈ l) :
    0 ≤ jsIndexOf l k := by
  induction l with
  | nil => simp at h
  | cons a rest ih =>
    by_cases hak : a = k
    · simp [jsIndexOf, hak]
    · have hk : k ∈ rest := by
        rcases List.mem_cons.mp h with h | h
        · exact absurd h.symm hak
        · exact h
      have h0 := ih hk
      have hne : jsIndexOf rest k ≠ -1 := by omega
      simp only [jsIndexOf, if_neg hak, if_neg hne]
      omega

theorem jsIndexOf_append_of_mem {l : List String} (l' : List String) {k : String}
    (h : k ∈ l) : jsIndexOf (l ++ l') k = jsIndexOf l k := by
  induction l with
  | nil => simp at h
  | cons a rest ih =>
    by_cases hak : a = k
    · simp [jsIndexOf, hak]
    · have hk : k ∈ rest := by
        rcases List.mem_cons.mp h with h | h
        · exact absurd h.symm hak
        · exact h
      simp only [List.cons_append, jsIndexOf, if_neg hak, List.append_eq, ih hk]

theorem jsIndexOf_append_singleton_of_not_mem {l : List String} {k : String}
    (h : k ∉ l) : jsIndexOf (l ++ [k]) k = l.length := by
  induction l with
  | nil => simp [jsIndexOf]
  | cons a rest ih =>
    have hak : a ≠ k := fun e => h (e ▸ List.mem_cons_self a rest)
    have hk : k ∉ rest := fun e => h (List.mem_cons_of_mem a e)
    have hmem : k ∈ rest ++ [k] := List.mem_append.mpr (Or.inr (List.mem_singleton.mpr rfl))
    have hnn : 0 ≤ jsIndexOf (rest ++ [k]) k := jsIndexOf_nonneg hmem
    have hne : jsIndexOf (rest ++ [k]) k ≠ -1 := by omega
    simp only [List.cons_append, jsIndexOf, if_neg hak, List.append_eq, if_neg hne, ih hk,
      List.length_cons]
    push_cast
    ring

theorem mapGet_eq_none_iff {α : Type} (m : List (String × α)) (k : String) :
    mapGet m k = none ↔ k ∉ m.map Prod.fst := by
  induction m with
  | nil => simp [mapGet]
  | cons p rest ih =>
    obtain ⟨k', v⟩ := p
    by_cases h : k' = k
    · subst h
      simp [mapGet]
    · simp only [mapGet, if_neg h, List.map_cons, List.mem_cons, ih]
      constructor
      · intro hn hor
        rcases hor with hor | hor
        · exact h hor.symm
        · exact hn hor
      · intro hn
        exact fun hm => hn (Or.inr hm)

theorem mapSet_of_not_mem {α : Type} {m : List (String × α)} {k : String} (v : α)
    (h : k ∉ m.map Prod.fst) : mapSet m k v = m ++ [(k, v)] := by
  induction m with
  | nil => simp [mapSet]
  | cons p rest ih =>
    obtain ⟨k', v'⟩ := p
    simp only [List.map_cons, List.mem_cons] at h
    push_neg at h
    have h1 : k' ≠ k := fun e => h.1 e.symm
    simp only [mapSet, if_neg h1, List.cons_append]
    rw [ih h.2]

theorem map_fst_positionsFrom (n : ℤ) (l : List String) :
    (positionsFrom n l).map Prod.fst = l := by
  induction l generalizing n with
  | nil => simp [positionsFrom]
  | cons a rest ih => simp [positionsFrom, ih]

theorem positionsFrom_append (n : ℤ) (l : List String) (k : String) :
    positionsFrom n (l ++ [k]) = positionsFrom n l ++ [(k, n + l.length)] := by
  induction l generalizing n with
  | nil => simp [positionsFrom]
  | cons a rest ih =>
    have harith : n + 1 + (rest.length : ℤ) = n + ((rest.length + 1 : ℕ) : ℤ) := by
      push_cast
      ring
    simp only [List.cons_append, positionsFrom, List.append_eq, ih (n + 1), List.length_cons,
      harith]

theorem mapGet_positionsFrom (n : ℤ) (l : List String) (k : String) :
    mapGet (positionsFrom n l) k = if k ∈ l then some (n + jsIndexOf l k) else none := by
  induction l generalizing n with
  | nil => simp [positionsFrom, mapGet]
  | cons a rest ih =>
    by_cases hak : a = k
    · subst hak
      simp [positionsFrom, mapGet, jsIndexOf]
    · by_cases hk : k ∈ rest
      · have h0 : 0 ≤ jsIndexOf rest k := jsIndexOf_nonneg hk
        have hne : jsIndexOf rest k ≠ -1 := by omega
        have hmem : k ∈ a :: rest := List.mem_cons_of_mem a hk
        simp only [positionsFrom, mapGet, if_neg hak, ih (n + 1), if_pos hk, if_pos hmem,
          jsIndexOf, if_neg hne]
        congr 1
        ring
      · have hmem : k ∉ a :: rest := by
          intro hc
          rcases List.mem_cons.mp hc with hc | hc
          · exact hak hc.symm
          · exact hk hc
        simp only [positionsFrom, mapGet, if_neg hak, ih (n + 1), if_neg hk, if_neg hmem]

theorem processError_eq (uri : String) (st : ConvState) (e : CheckstyleError) :
    processError uri st e =
      match mapGet st.ruleIndexMap (extractRuleId e.source) with
      | some i => { st with results := st.results ++ [mkSpecResult (uri, e) i] }
      | none =>
        { ruleIndexMap :=
            mapSet st.ruleIndexMap (extractRuleId e.source) (st.ruleMap.length : ℤ)
          ruleMap := mapSet st.ruleMap (extractRuleId e.source) (mkSpecDescr (uri, e))
          results := st.results ++ [mkSpecResult (uri, e) (st.ruleMap.length : ℤ)] } := by
  rcases h : mapGet st.ruleIndexMap (extractRuleId e.source) with _ | i
  · simp only [processError, mkSpecResult, mkSpecDescr, idOf, h]
  · simp only [processError, mkSpecResult, mkSpecDescr, idOf, h]

theorem foldl_map_pair (uri : String) (es : List CheckstyleError) (st : ConvState) :
    (es.map (fun e => (uri, e))).foldl stepPair st = es.foldl (processError uri) st := by
  induction es generalizing st with
  | nil => rfl
  | cons e rest ih => simp only [List.map_cons, List.foldl_cons, stepPair, ih]

theorem convert_fold_eq (r : CheckstyleReport) :
    r.file.foldl processFile ⟨[], [], []⟩ = finalState r := by
  unfold finalState errsOf
  rw [List.foldl_flatten, List.foldl_map]
  simp only [foldl_map_pair]
  rfl

theorem foldState_spec (L : List (String × CheckstyleError)) :
    ((L.foldl stepPair ⟨[], [], []⟩).ruleMap.map Prod.fst = firstSeen (L.map idOf))
    ∧ ((L.foldl stepPair ⟨[], [], []⟩).ruleIndexMap
        = positionsFrom 0 (firstSeen (L.map idOf)))
    ∧ (∀ k d, (k, d) ∈ (L.foldl stepPair ⟨[], [], []⟩).ruleMap →
        ∃ p, L.find? (fun q => idOf q == k) = some p ∧ d = mkSpecDescr p)
    ∧ ((L.foldl stepPair ⟨[], [], []⟩).results
        = L.map (fun p => mkSpecResult p (jsIndexOf (firstSeen (L.map idOf)) (idOf p)))) := by
  induction L using List.reverseRecOn with
  | nil =>
    refine ⟨rfl, rfl, ?_, rfl⟩
    intro k d h
    simp at h
  | append_singleton L p ih =>
    obtain ⟨h1, h2, h3, h4⟩ := ih
    set st := L.foldl stepPair (⟨[], [], []⟩ : ConvState) with hst
    set k := idOf p with hk
    set fs := firstSeen (L.map idOf) with hfs
    have hid : extractRuleId p.2.source = k := rfl
    have hfold : (L ++ [p]).foldl stepPair ⟨[], [], []⟩ = processError p.1 st p.2 := by
      rw [List.foldl_append]
      rfl
    have hids : (L ++ [p]).map idOf = L.map idOf ++ [k] := by simp
    by_cases hmem : k ∈ fs
    · -- the rule identifier has been seen: the maps are unchanged
      have hfs' : firstSeen ((L ++ [p]).map idOf) = fs := by
        rw [hids, firstSeen_append_singleton, if_pos hmem]
      have hget : mapGet st.ruleIndexMap (extractRuleId p.2.source)
          = some (0 + jsIndexOf fs k) := by
        rw [hid, h2, mapGet_positionsFrom, if_pos hmem]
      have hstep : (L ++ [p]).foldl stepPair ⟨[], [], []⟩
          = { st with results := st.results ++ [mkSpecResult p (jsIndexOf fs k)] } := by
        rw [hfold, processError_eq, hget]
        dsimp only
        rw [zero_add, Prod.mk.eta]
      refine ⟨?_, ?_, ?_, ?_⟩
      · rw [hstep, hfs']
        exact h1
      · rw [hstep, hfs']
        exact h2
      · intro k' d' hmem'
        rw [hstep] at hmem'
        obtain ⟨p₀, hfind, hd⟩ := h3 k' d' hmem'
        refine ⟨p₀, ?_, hd⟩
        rw [List.find?_append, hfind]
        rfl
      · rw [hstep, hfs', List.map_append, ← h4]
        simp
    · -- a new rule identifier: it is appended to the maps
      have hfs' : firstSeen ((L ++ [p]).map idOf) = fs ++ [k] := by
        rw [hids, firstSeen_append_singleton, if_neg hmem]
      have hget : mapGet st.ruleIndexMap (extractRuleId p.2.source) = none := by
        rw [hid, h2, mapGet_positionsFrom, if_neg hmem]
      have hnotkeys : k ∉ st.ruleMap.map Prod.fst := by
        rw [h1]
        exact hmem
      have hrm : mapSet st.ruleMap (extractRuleId p.2.source) (mkSpecDescr p)
          = st.ruleMap ++ [(k, mkSpecDescr p)] := by
        rw [hid, mapSet_of_not_mem _ hnotkeys]
      have hlen : st.ruleMap.length = fs.length := by
        rw [← h1, List.length_map]
      have hrim : mapSet st.ruleIndexMap (extractRuleId p.2.source) (st.ruleMap.length : ℤ)
          = positionsFrom 0 (fs ++ [k]) := by
        rw [hid, h2, mapSet_of_not_mem, positionsFrom_append, zero_add, hlen]
        rw [map_fst_positionsFrom]
        exact hmem
      have hstep : (L ++ [p]).foldl stepPair ⟨[], [], []⟩
          = { ruleIndexMap := positionsFrom 0 (fs ++ [k])
              ruleMap := st.ruleMap ++ [(k, mkSpecDescr p)]
              results := st.results ++ [mkSpecResult p (fs.length : ℤ)] } := by
        rw [hfold, processError_eq, hget]
        dsimp only
        rw [Prod.mk.eta, hrm, hrim, hlen]
      have hfindL : L.find? (fun q => idOf q == k) = none := by
        rw [List.find?_eq_none]
        intro q hq
        simp only [beq_iff_eq]
        intro hqe
        exact hmem (hqe ▸ mem_firstSeen.mpr (List.mem_map_of_mem idOf hq))
      refine ⟨?_, ?_, ?_, ?_⟩
      · rw [hstep, hfs']
        dsimp only
        rw [List.map_append, h1]
        rfl
      · rw [hstep, hfs']
      · intro k' d' hmem'
        rw [hstep] at hmem'
        dsimp only at hmem'
        rcases List.mem_append.mp hmem' with hold | hnew
        · obtain ⟨p₀, hfind, hd⟩ := h3 k' d' hold
          refine ⟨p₀, ?_, hd⟩
          rw [List.find?_append, hfind]
          rfl
        · rw [List.mem_singleton, Prod.mk.injEq] at hnew
          obtain ⟨hk', hd'⟩ := hnew
          subst hk'
          refine ⟨p, ?_, hd'⟩
          rw [List.find?_append, hfindL]
          simp [List.find?]
      · rw [hstep, hfs', List.map_append]
        dsimp only
        have hcongr : L.map (fun q => mkSpecResult q (jsIndexOf (fs ++ [k]) (idOf q)))
            = L.map (fun q => mkSpecResult q (jsIndexOf fs (idOf q))) := by
          apply List.map_congr_left
          intro q hq
          rw [jsIndexOf_append_of_mem]
          exact mem_firstSeen.mpr (List.mem_map_of_mem idOf hq)
        rw [hcongr, ← h4]
        simp [jsIndexOf_append_singleton_of_not_mem hmem]

theorem runOf_convertToSarif (r : CheckstyleReport) (tv : Option String) :
    runOf (convertToSarif r tv) =
      { tool :=
          { driver :=
              { name := "Checkstyle"
                version :=
                  match tv with
                  | some v => some v
                  | none => r.version
                informationUri := "https://checkstyle.org"
                rules :=
                  if ((finalState r).ruleMap.map Prod.snd).length > 0 then
                    some ((finalState r).ruleMap.map Prod.snd)
                  else none } }
        results := (finalState r).results
        columnKind := "utf16CodeUnits" } := by
  simp only [convertToSarif, runOf, convert_fold_eq, List.headD]
  cases tv with
  | some v => rfl
  | none => cases r.version <;> rfl

theorem finalState_results (r : CheckstyleReport) :
    (finalState r).results
      = (errsOf r).map
          (fun p => mkSpecResult p (jsIndexOf (firstSeen ((errsOf r).map idOf)) (idOf p))) :=
  (foldState_spec (errsOf r)).2.2.2

theorem finalState_keys (r : CheckstyleReport) :
    (finalState r).ruleMap.map Prod.fst = firstSeen ((errsOf r).map idOf) :=
  (foldState_spec (errsOf r)).1

theorem finalState_descr (r : CheckstyleReport) :
    ∀ k d, (k, d) ∈ (finalState r).ruleMap →
      ∃ p, (errsOf r).find? (fun q => idOf q == k) = some p ∧ d = mkSpecDescr p :=
  (foldState_spec (errsOf r)).2.2.1

theorem finalState_id_eq_key (r : CheckstyleReport) :
    ∀ pr ∈ (finalState r).ruleMap, pr.2.id = pr.1 := by
  rintro ⟨k, d⟩ hmem
  obtain ⟨p, hfind, hd⟩ := finalState_descr r k d hmem
  have hp := List.find?_some hfind
  rw [beq_iff_eq] at hp
  rw [hd]
  exact hp

theorem rules_getD_eq (r : CheckstyleReport) (tv : Option String) :
    ((runOf (convertToSarif r tv)).tool.driver.rules).getD []
      = (finalState r).ruleMap.map Prod.snd := by
  rw [runOf_convertToSarif]
  dsimp only
  by_cases h : ((finalState r).ruleMap.map Prod.snd).length > 0
  · rw [if_pos h]
    rfl
  · rw [if_neg h]
    have h0 : ((finalState r).ruleMap.map Prod.snd).length = 0 := by omega
    rw [List.length_eq_zero] at h0
    rw [h0]
    rfl

theorem rules_ids_eq (r : CheckstyleReport) (tv : Option String) :
    (((runOf (convertToSarif r tv)).tool.driver.rules).getD []).map ReportingDescriptor.id
      = firstSeen ((errsOf r).map idOf) := by
  rw [rules_getD_eq, List.map_map, ← finalState_keys r]
  apply List.map_congr_left
  intro pr hpr
  exact finalState_id_eq_key r pr hpr

theorem mem_zip_self {α : Type} {l : List α} {q : α × α} (h : q ∈ l.zip l) :
    q.1 = q.2 := by
  induction l with
  | nil => simp at h
  | cons a t ih =>
    rw [List.zip_cons_cons] at h
    rcases List.mem_cons.mp h with h | h
    · rw [h]
    · exact ih h

theorem splitOnChar_ne_nil (sep : Char) (cs : List Char) : splitOnChar sep cs ≠ [] := by
  cases cs with
  | nil => simp [splitOnChar]
  | cons c cs' =>
    simp only [splitOnChar]
    rcases h : splitOnChar sep cs' with _ | ⟨g, gs⟩
    · simp
    · by_cases hc : c = sep <;> simp [hc]

theorem splitOnChar_of_not_mem {sep : Char} {cs : List Char} (h : sep ∉ cs) :
    splitOnChar sep cs = [cs] := by
  induction cs with
  | nil => rfl
  | cons c cs' ih =>
    have hc : c ≠ sep := fun e => h (e ▸ List.mem_cons_self c cs')
    have h' : sep ∉ cs' := fun e => h (List.mem_cons_of_mem c e)
    simp only [splitOnChar, ih h']
    simp [hc]

/-! ## Claim theorems -/

/-- C1: for every `CheckstyleReport`, the `results` array emitted by
`convertToSarif` has length equal to the total number of errors across all
files; the results appear in file-then-error traversal order (grouped by file
in file order, then in error order within a file, witnessed here by the
per-result rule identifier, level and message text matching the traversal); a
file with zero errors contributes no results, and an empty report yields an
empty `results` array. -/
theorem c1_results_count_and_order (r : CheckstyleReport) (tv : Option String) :
    ((runOf (convertToSarif r tv)).results.length
      = (r.file.map (fun f => f.error.length)).sum)
    ∧ ((runOf (convertToSarif r tv)).results.map
          (fun res => (res.ruleId, res.level, res.message.text))
        = (errsOf r).map (fun p => (idOf p, mapSeverityToLevel p.2.severity, p.2.message)))
    ∧ (r.file = [] → (runOf (convertToSarif r tv)).results = []) := by
  have hres : (runOf (convertToSarif r tv)).results
      = (errsOf r).map
          (fun p => mkSpecResult p (jsIndexOf (firstSeen ((errsOf r).map idOf)) (idOf p))) := by
    rw [runOf_convertToSarif]
    exact finalState_results r
  refine ⟨?_, ?_, ?_⟩
  · rw [hres, List.length_map]
    unfold errsOf
    rw [List.length_flatten, List.map_map]
    congr 1
    apply List.map_congr_left
    intro f hf
    simp
  · rw [hres, List.map_map]
    apply List.map_congr_left
    intro p hp
    rfl
  · intro hfile
    rw [hres]
    unfold errsOf
    rw [hfile]
    rfl

/-- Witness for C1 at a concrete empty report and a concrete two-file
report, discharging the `r.file = []` hypothesis by `rfl`. -/
theorem c1_results_count_and_order_witness :
    (runOf (convertToSarif { version := none, file := [] } none)).results = [] ∧
    (runOf (convertToSarif witnessReport none)).results.length = 2 :=
  ⟨(c1_results_count_and_order { version := none, file := [] } none).2.2 rfl,
   by rw [(c1_results_count_and_order witnessReport none).1]; decide⟩

/-- C2: parsing a severity attribute and projecting it maps `error`,
`warning`, `info`, `ignore` (matched after lower-casing, hence
case-insensitively; `warn` is a synonym of `warning`) to the SARIF levels
`error`, `warning`, `note`, `none` respectively, and any other or missing
severity string yields the level `warning`. -/
theorem c2_severity_round_trip (re : RawCheckstyleError) :
    (∀ s, re.severity = some s →
      ((strToLower s = "error" →
          mapSeverityToLevel (parseRawError re).severity = .error)
        ∧ (strToLower s = "warning" ∨ strToLower s = "warn" →
            mapSeverityToLevel (parseRawError re).severity = .warning)
        ∧ (strToLower s = "info" →
            mapSeverityToLevel (parseRawError re).severity = .note)
        ∧ (strToLower s = "ignore" →
            mapSeverityToLevel (parseRawError re).severity = .none)
        ∧ (strToLower s ∉ (["error", "warning", "warn", "info", "ignore"] : List String) →
            mapSeverityToLevel (parseRawError re).severity = .warning)))
    ∧ (re.severity = none → mapSeverityToLevel (parseRawError re).severity = .warning) := by
  have hsev : (parseRawError re).severity
      = normalizeCheckstyleSeverity (re.severity.getD "warning") := rfl
  constructor
  · intro s hs
    rw [hsev, hs]
    refine ⟨?_, ?_, ?_, ?_, ?_⟩
    · intro h
      simp [normalizeCheckstyleSeverity, h, mapSeverityToLevel]
    · rintro (h | h) <;> simp [normalizeCheckstyleSeverity, h, mapSeverityToLevel]
    · intro h
      simp [normalizeCheckstyleSeverity, h, mapSeverityToLevel]
    · intro h
      simp [normalizeCheckstyleSeverity, h, mapSeverityToLevel]
    · intro h
      simp only [List.mem_cons, List.mem_singleton] at h
      push_neg at h
      obtain ⟨h1, h2, h3, h4, h5⟩ := h
      simp [normalizeCheckstyleSeverity, h1, h2, h3, h4, h5, mapSeverityToLevel]
  · intro h
    rw [hsev, h]
    decide

/-- Witness for C2 at concrete severity strings, discharging the
hypotheses by `rfl`-style evaluation. -/
theorem c2_severity_round_trip_witness :
    mapSeverityToLevel
        (parseRawError { line := none, column := none, severity := some "ERROR",
                         message := none, source := none }).severity = .error
    ∧ mapSeverityToLevel
        (parseRawError { line := none, column := none, severity := some "Warn",
                         message := none, source := none }).severity = .warning
    ∧ mapSeverityToLevel
        (parseRawError { line := none, column := none, severity := some "custom",
                         message := none, source := none }).severity = .warning
    ∧ mapSeverityToLevel
        (parseRawError { line := none, column := none, severity := none,
                         message := none, source := none }).severity = .warning :=
  ⟨((c2_severity_round_trip _).1 "ERROR" rfl).1 (by decide),
   ((c2_severity_round_trip _).1 "Warn" rfl).2.1 (Or.inr (by decide)),
   ((c2_severity_round_trip _).1 "custom" rfl).2.2.2.2 (by decide),
   (c2_severity_round_trip _).2 rfl⟩

/-- C5: the emitted `tool.driver.version` of `convertToSarif` (the
map-with-counter variant) equals the override parameter when supplied,
otherwise the report's own `version` field, and when both are absent the key
is omitted (`none`), never emitted as an empty string. -/
theorem c5_driver_version (r : CheckstyleReport) (tv : Option String) :
    ((runOf (convertToSarif r tv)).tool.driver.version
      = match tv with
        | some v => some v
        | none => r.version)
    ∧ (tv = none → r.version = none →
        (runOf (convertToSarif r tv)).tool.driver.version = none) := by
  have h := runOf_convertToSarif r tv
  constructor
  · rw [h]
  · intro h1 h2
    rw [h, h1]
    exact h2

/-- Witness for C5: override wins at a concrete report carrying its own
version; both keys absent yields an omitted version. -/
theorem c5_driver_version_witness :
    (runOf (convertToSarif versionClashReport (some "99.0.0"))).tool.driver.version
        = some "99.0.0"
    ∧ (runOf (convertToSarif { version := none, file := [] } none)).tool.driver.version
        = none :=
  ⟨(c5_driver_version versionClashReport (some "99.0.0")).1,
   (c5_driver_version { version := none, file := [] } none).2 rfl rfl⟩

/-- C6: the artifact URI of a file name is computed by replacing every
backslash with a forward slash; a drive-letter-prefixed result becomes
`file:///` + path, a result starting with `/` becomes `file://` + path, and
any other (relative) result is returned unchanged; in particular
`/a/b.java ↦ file:///a/b.java`, `C:\Users\x\b.java ↦ file:///C:/Users/x/b.java`
and `src/b.java ↦ src/b.java`. -/
theorem c6_path_to_uri :
    (∀ p : String,
      (startsWithDriveLetter
            (String.mk (p.data.map (fun c => if c = '\\' then '/' else c))) = true →
          pathToUri p
            = "file:///" ++ String.mk (p.data.map (fun c => if c = '\\' then '/' else c)))
      ∧ (startsWithDriveLetter
            (String.mk (p.data.map (fun c => if c = '\\' then '/' else c))) = false →
          startsWithSlash
            (String.mk (p.data.map (fun c => if c = '\\' then '/' else c))) = true →
          pathToUri p
            = "file://" ++ String.mk (p.data.map (fun c => if c = '\\' then '/' else c)))
      ∧ (startsWithDriveLetter
            (String.mk (p.data.map (fun c => if c = '\\' then '/' else c))) = false →
          startsWithSlash
            (String.mk (p.data.map (fun c => if c = '\\' then '/' else c))) = false →
          pathToUri p
            = String.mk (p.data.map (fun c => if c = '\\' then '/' else c))))
    ∧ pathToUri "/a/b.java" = "file:///a/b.java"
    ∧ pathToUri "C:\\Users\\x\\b.java" = "file:///C:/Users/x/b.java"
    ∧ pathToUri "src/b.java" = "src/b.java" := by
  refine ⟨?_, by decide, by decide, by decide⟩
  intro p
  refine ⟨?_, ?_, ?_⟩
  · intro h
    simp [pathToUri, h]
  · intro h1 h2
    simp [pathToUri, h1, h2]
  · intro h1 h2
    simp [pathToUri, h1, h2]

/-- Witness for C6 at concrete absolute, drive-letter and relative paths,
discharging the prefix-test hypotheses by `decide`. -/
theorem c6_path_to_uri_witness :
    pathToUri "/x/Y.java" = "file:///x/Y.java"
    ∧ pathToUri "d:\\w\\Y.java" = "file:///d:/w/Y.java"
    ∧ pathToUri "w/Y.java" = "w/Y.java" :=
  ⟨(c6_path_to_uri.1 "/x/Y.java").2.1 (by decide) (by decide),
   (c6_path_to_uri.1 "d:\\w\\Y.java").1 (by decide),
   (c6_path_to_uri.1 "w/Y.java").2.2 (by decide) (by decide)⟩

/-- C3: the emitted `rules` array holds exactly one descriptor per distinct
derived rule identifier, in first-seen order (its identifier list is the
first-seen deduplication of the traversal's identifiers, without
duplicates); every result's `ruleIndex` is the position of its identifier's
descriptor in the `rules` array; and each descriptor's metadata comes from
the first traversal entry bearing its identifier — `helpUri` is present
exactly when that first occurrence's `source` was non-empty, formed from the
lower-cased identifier in the fixed URL template — so later occurrences
never overwrite it. -/
theorem c3_rule_registry (r : CheckstyleReport) (tv : Option String) :
    ((((runOf (convertToSarif r tv)).tool.driver.rules).getD []).map ReportingDescriptor.id
        = firstSeen ((errsOf r).map idOf))
    ∧ ((((runOf (convertToSarif r tv)).tool.driver.rules).getD []).map
        ReportingDescriptor.id).Nodup
    ∧ (∀ pr ∈ ((runOf (convertToSarif r tv)).results).zip (errsOf r),
        pr.1.ruleIndex
          = jsIndexOf
              ((((runOf (convertToSarif r tv)).tool.driver.rules).getD []).map
                ReportingDescriptor.id)
              pr.1.ruleId)
    ∧ (∀ d ∈ ((runOf (convertToSarif r tv)).tool.driver.rules).getD [],
        ∃ p, (errsOf r).find? (fun q => idOf q == d.id) = some p
          ∧ d.id = idOf p
          ∧ d.helpUri
              = (if p.2.source = "" then none else some (helpUriFor d.id))) := by
  have hres : (runOf (convertToSarif r tv)).results
      = (errsOf r).map
          (fun p => mkSpecResult p (jsIndexOf (firstSeen ((errsOf r).map idOf)) (idOf p))) := by
    rw [runOf_convertToSarif]
    exact finalState_results r
  refine ⟨rules_ids_eq r tv, ?_, ?_, ?_⟩
  · rw [rules_ids_eq r tv]
    exact nodup_firstSeen _
  · intro pr hpr
    rw [hres, List.zip_map_left] at hpr
    obtain ⟨q, hq, hqpr⟩ := List.mem_map.mp hpr
    have hqq : q.1 = q.2 := mem_zip_self hq
    rw [rules_ids_eq r tv, ← hqpr]
    rfl
  · intro d hd
    rw [rules_getD_eq r tv] at hd
    obtain ⟨pr, hpr, hprd⟩ := List.mem_map.mp hd
    obtain ⟨p, hfind, hdval⟩ := finalState_descr r pr.1 pr.2 (by rwa [Prod.mk.eta])
    have hkey : pr.2.id = pr.1 := finalState_id_eq_key r pr hpr
    have hdid : d.id = pr.1 := by rw [← hprd, hkey]
    have hdid2 : d.id = idOf p := by
      rw [← hprd, hdval]
      rfl
    refine ⟨p, ?_, hdid2, ?_⟩
    · rw [hdid]
      exact hfind
    · rw [← hprd, hdval]
      rfl

/-- Witness for C3 at a concrete report whose two errors share one derived
rule identifier: both results carry `ruleIndex` equal to that identifier's
position in the emitted rule-identifier list, discharging the
zip-membership and rules-membership hypotheses by `decide`. -/
theorem c3_rule_registry_witness :
    ({ ruleId := "TestCheck", ruleIndex := 0, level := ResultLevel.note
       message := { text := "No col" }
       locations :=
         [{ physicalLocation :=
              { artifactLocation := { uri := "Foo.java" }
                region := { startLine := JSNum.num 2, startColumn := none } } }] } :
        Result).ruleIndex
      = jsIndexOf
          ((((runOf (convertToSarif witnessReport none)).tool.driver.rules).getD []).map
            ReportingDescriptor.id)
          "TestCheck"
    ∧ (∃ p, (errsOf witnessReport).find?
            (fun q => idOf q == ("TestCheck" : String)) = some p
        ∧ ("TestCheck" : String) = idOf p
        ∧ (some "https://checkstyle.org/checks/testcheck.html" : Option String)
            = (if p.2.source = "" then none else some (helpUriFor "TestCheck"))) := by
  constructor
  · exact (c3_rule_registry witnessReport none).2.2.1
      ({ ruleId := "TestCheck", ruleIndex := 0, level := ResultLevel.note
         message := { text := "No col" }
         locations :=
           [{ physicalLocation :=
                { artifactLocation := { uri := "Foo.java" }
                  region := { startLine := JSNum.num 2, startColumn := none } } }] },
        ("Foo.java",
          { line := JSNum.num 2, column := some (JSNum.num 0)
            severity := CheckstyleSeverity.info, message := "No col"
            source := "com.example.TestCheck" }))
      (by decide)
  · obtain ⟨p, h1, h2, h3⟩ := (c3_rule_registry witnessReport none).2.2.2
      { id := "TestCheck", helpUri := some "https://checkstyle.org/checks/testcheck.html" }
      (by decide)
    exact ⟨p, h1, h2, h3⟩

/-- C7: every result carries exactly one location; its region always has
`startLine` equal to the error's `line`, and has `startColumn` (equal to the
error's column) exactly when the column is a defined number strictly greater
than zero — a zero or negative column, or an absent one, leaves the region
without a `startColumn` key. -/
theorem c7_single_location_region (r : CheckstyleReport) (tv : Option String) :
    ∀ pr ∈ ((runOf (convertToSarif r tv)).results).zip (errsOf r),
      ∃ l, pr.1.locations = [l]
        ∧ l.physicalLocation.artifactLocation.uri = pr.2.1
        ∧ l.physicalLocation.region.startLine = pr.2.2.line
        ∧ (∀ v, l.physicalLocation.region.startColumn = some v
            ↔ (pr.2.2.column = some v ∧ v.isPos = true)) := by
  have hres : (runOf (convertToSarif r tv)).results
      = (errsOf r).map
          (fun p => mkSpecResult p (jsIndexOf (firstSeen ((errsOf r).map idOf)) (idOf p))) := by
    rw [runOf_convertToSarif]
    exact finalState_results r
  intro pr hpr
  rw [hres, List.zip_map_left] at hpr
  obtain ⟨q, hq, hqpr⟩ := List.mem_map.mp hpr
  obtain ⟨q1, q2⟩ := q
  have hqq : q1 = q2 := mem_zip_self hq
  subst hqq
  subst hqpr
  refine ⟨_, rfl, rfl, rfl, ?_⟩
  intro v
  dsimp only [mkSpecResult, Prod.map, id]
  cases hcol : q1.2.column with
  | none => simp
  | some c =>
    by_cases hpos : c.isPos
    · simp only [hpos, if_pos rfl, if_true]
      constructor
      · rintro h
        rw [Option.some_inj] at h
        exact ⟨by rw [← h], by rw [← h]; exact hpos⟩
      · rintro ⟨h1, h2⟩
        rw [Option.some_inj] at h1
        rw [h1]
    · simp only [hpos]
      constructor
      · intro h
        simp at h
      · rintro ⟨h1, h2⟩
        rw [Option.some_inj] at h1
        rw [h1] at hpos
        exact absurd h2 hpos

/-- Witness for C7 at a concrete result/error pair whose column is zero:
the region has no `startColumn`; zip-membership discharged by `decide`. -/
theorem c7_single_location_region_witness :
    ∃ l,
      ({ ruleId := "TestCheck", ruleIndex := 0, level := ResultLevel.note
         message := { text := "No col" }
         locations :=
           [{ physicalLocation :=
                { artifactLocation := { uri := "Foo.java" }
                  region := { startLine := JSNum.num 2, startColumn := none } } }] } :
          Result).locations = [l]
      ∧ l.physicalLocation.artifactLocation.uri = "Foo.java"
      ∧ l.physicalLocation.region.startLine
          = ({ line := JSNum.num 2, column := some (JSNum.num 0)
               severity := CheckstyleSeverity.info, message := "No col"
               source := "com.example.TestCheck" } : CheckstyleError).line
      ∧ (∀ v, l.physicalLocation.region.startColumn = some v
          ↔ (({ line := JSNum.num 2, column := some (JSNum.num 0)
                severity := CheckstyleSeverity.info, message := "No col"
                source := "com.example.TestCheck" } : CheckstyleError).column = some v
              ∧ v.isPos = true)) :=
  c7_single_location_region witnessReport none
    ({ ruleId := "TestCheck", ruleIndex := 0, level := ResultLevel.note
       message := { text := "No col" }
       locations :=
         [{ physicalLocation :=
              { artifactLocation := { uri := "Foo.java" }
                region := { startLine := JSNum.num 2, startColumn := none } } }] },
      ("Foo.java",
        { line := JSNum.num 2, column := some (JSNum.num 0)
          severity := CheckstyleSeverity.info, message := "No col"
          source := "com.example.TestCheck" }))
    (by decide)

/-- C4 counterexample: for the source string `"com.example."` the last
non-empty segment of the `.`-split is `"example"`, but `extractRuleId`
returns the empty string — the claim's "last non-empty segment" is wrong. -/
theorem c4_counterexample_trailing_dot :
    extractRuleId "com.example." = ""
    ∧ ((((splitOnChar '.' ("com.example.".data)).map String.mk).filter
          (fun seg => seg ≠ "")).getLast? = some "example")
    ∧ ("" : String) ≠ "example" := by
  refine ⟨by decide, by decide, by decide⟩

/-- C4 (amended): the derived rule identifier of an empty source string is
the literal `"UnknownRule"`; otherwise it is the last segment of the
`.`-split — possibly empty when the source ends in `.` — and a source string
containing no `.` yields itself unchanged. -/
theorem c4_extract_rule_id (source : String) :
    (source = "" → extractRuleId source = "UnknownRule")
    ∧ (source ≠ "" →
        ((splitOnChar '.' source.data).map String.mk).getLast? = some (extractRuleId source))
    ∧ (source ≠ "" → '.' ∉ source.data → extractRuleId source = source) := by
  refine ⟨?_, ?_, ?_⟩
  · intro h
    simp [extractRuleId, h]
  · intro h
    have hne : (splitOnChar '.' source.data).map String.mk ≠ [] := by
      simp [splitOnChar_ne_nil]
    obtain ⟨x, hx⟩ := Option.isSome_iff_exists.mp (List.getLast?_isSome.mpr hne)
    rw [hx]
    simp [extractRuleId, h, hx]
  · intro h hdot
    simp only [extractRuleId, if_neg h]
    rw [splitOnChar_of_not_mem hdot]
    simp

/-- Witness for C4 (amended) at an empty source, a dotted source and a
dot-free source. -/
theorem c4_extract_rule_id_witness :
    extractRuleId "" = "UnknownRule"
    ∧ ((splitOnChar '.' ("a.b".data)).map String.mk).getLast? = some (extractRuleId "a.b")
    ∧ extractRuleId "SimpleCheck" = "SimpleCheck" :=
  ⟨(c4_extract_rule_id "").1 rfl,
   (c4_extract_rule_id "a.b").2.1 (by decide),
   (c4_extract_rule_id "SimpleCheck").2.2 (by decide) (by decide)⟩

/-- C8: `parseCheckstyleXml` fails exactly in three cases — empty or
whitespace-only input (reported as empty input, with a result independent of
the tokenizer), a tokenizer failure (wrapped with the original cause kept),
or a well-formed tree whose root object lacks the `checkstyle` key; whenever
the root is present the parse succeeds, so a missing or malformed individual
attribute never causes a failure (it is locally defaulted instead). -/
theorem c8_parse_failure_modes (xml : String)
    (tok : String → Except String RawCheckstyleRoot) :
    ((xml = "" ∨ jsTrim xml = "") →
        parseCheckstyleXml xml tok = .error .emptyInput)
    ∧ ((xml = "" ∨ jsTrim xml = "") → ∀ tok',
        parseCheckstyleXml xml tok' = parseCheckstyleXml xml tok)
    ∧ (¬(xml = "" ∨ jsTrim xml = "") → ∀ msg, tok xml = .error msg →
        parseCheckstyleXml xml tok = .error (.xmlError msg))
    ∧ (¬(xml = "" ∨ jsTrim xml = "") → ∀ root, tok xml = .ok root →
        root.checkstyle = none → parseCheckstyleXml xml tok = .error .invalidRoot)
    ∧ (¬(xml = "" ∨ jsTrim xml = "") → ∀ root cs, tok xml = .ok root →
        root.checkstyle = some cs →
        parseCheckstyleXml xml tok
          = .ok { version := cs.version, file := (cs.file.getD []).map parseRawFile }) := by
  refine ⟨?_, ?_, ?_, ?_, ?_⟩
  · intro h
    simp [parseCheckstyleXml, h]
  · intro h tok'
    simp [parseCheckstyleXml, h]
  · intro h msg hmsg
    simp [parseCheckstyleXml, h, hmsg]
  · intro h root hok hroot
    simp [parseCheckstyleXml, h, hok, hroot]
  · intro h root cs hok hcs
    simp [parseCheckstyleXml, h, hok, hcs]

/-- Witness for C8: concrete empty, whitespace-only, tokenizer-failing,
wrong-root and attribute-less inputs, hypotheses discharged by `decide` and
`rfl`. -/
theorem c8_parse_failure_modes_witness :
    parseCheckstyleXml "" wrongRootTokenize = .error .emptyInput
    ∧ parseCheckstyleXml "  \n " wrongRootTokenize = .error .emptyInput
    ∧ parseCheckstyleXml "<x>" failingTokenize = .error (.xmlError "boom")
    ∧ parseCheckstyleXml "<root/>" wrongRootTokenize = .error .invalidRoot
    ∧ parseCheckstyleXml "<checkstyle/>" nonPositiveTokenize
        = .ok { version := none
                file := ((nonPositiveRawRoot.checkstyle.getD
                    { version := none, file := none }).file.getD []).map parseRawFile } :=
  ⟨(c8_parse_failure_modes "" wrongRootTokenize).1 (Or.inl rfl),
   (c8_parse_failure_modes "  \n " wrongRootTokenize).1 (Or.inr (by decide)),
   (c8_parse_failure_modes "<x>" failingTokenize).2.2.1 (by decide) "boom" rfl,
   (c8_parse_failure_modes "<root/>" wrongRootTokenize).2.2.2.1 (by decide) _ rfl rfl,
   (c8_parse_failure_modes "<checkstyle/>" nonPositiveTokenize).2.2.2.2 (by decide)
     nonPositiveRawRoot _ rfl rfl⟩

/-- C9 counterexample: the raw tree `nonPositiveRawRoot` parses successfully,
yet the first error's `line` is `0` — not a positive integer — and its
`column` is present with the negative value `-5`; the second error's line
attribute `"0x10"` is coerced in base 16 to `16`, not treated as a base-10
failure that would default to `1`. -/
theorem c9_counterexample_nonpositive :
    parseCheckstyleXml "<checkstyle/>" nonPositiveTokenize
      = .ok { version := none
              file := [{ name := "Foo.java"
                         error := [{ line := .num 0
                                     column := some (.num (-5))
                                     severity := .warning
                                     message := ""
                                     source := "" }
                                   , { line := .num 16
                                       column := none
                                       severity := .warning
                                       message := ""
                                       source := "" }] }] }
    ∧ (JSNum.num 0).isPos = false
    ∧ (JSNum.num (-5)).isPos = false
    ∧ JSNum.num 16 ≠ JSNum.num 1 := by
  refine ⟨by with_unfolding_all rfl, by decide, ?_, by decide⟩
  with_unfolding_all decide

/-- C9 (amended): after a successful parse, an error's `line` equals the
JavaScript numeric coercion of its line attribute, defaulting to `1` when
the attribute is missing or coerces to NaN (the value need not be a
positive base-10 integer); the `column` field is present exactly when the
column attribute is present and coerces to a non-NaN number, in which case
it equals that coercion. -/
theorem c9_numeric_coercion (re : RawCheckstyleError) :
    (re.line = none → (parseRawError re).line = .num 1)
    ∧ (∀ s, re.line = some s → jsNumberOfString s = .nan →
        (parseRawError re).line = .num 1)
    ∧ (∀ s, re.line = some s → jsNumberOfString s ≠ .nan →
        (parseRawError re).line = jsNumberOfString s)
    ∧ (re.column = none → (parseRawError re).column = none)
    ∧ (∀ s, re.column = some s → jsNumberOfString s = .nan →
        (parseRawError re).column = none)
    ∧ (∀ s, re.column = some s → jsNumberOfString s ≠ .nan →
        (parseRawError re).column = some (jsNumberOfString s)) := by
  refine ⟨?_, ?_, ?_, ?_, ?_, ?_⟩
  · intro h
    simp [parseRawError, h]
  · intro s hs hn
    simp [parseRawError, hs, hn]
  · intro s hs hn
    simp [parseRawError, hs, hn]
  · intro h
    simp [parseRawError, h]
  · intro s hs hn
    simp [parseRawError, hs, hn]
  · intro s hs hn
    simp [parseRawError, hs, hn]

/-- Witness for C9 (amended) at concrete attributes: a missing line, a
non-numeric line, a numeric line, and a present numeric column. -/
theorem c9_numeric_coercion_witness :
    (parseRawError { line := none, column := none, severity := none,
                     message := none, source := none }).line = .num 1
    ∧ (parseRawError { line := some "abc", column := none, severity := none,
                       message := none, source := none }).line = .num 1
    ∧ (parseRawError { line := some "42", column := none, severity := none,
                       message := none, source := none }).line = jsNumberOfString "42"
    ∧ (parseRawError { line := none, column := some "7", severity := none,
                       message := none, source := none }).column
        = some (jsNumberOfString "7") :=
  ⟨(c9_numeric_coercion _).1 rfl,
   (c9_numeric_coercion _).2.1 "abc" rfl (by with_unfolding_all rfl),
   (c9_numeric_coercion _).2.2.1 "42" rfl (by with_unfolding_all decide),
   (c9_numeric_coercion _).2.2.2.2.2 "7" rfl (by with_unfolding_all decide)⟩

/-- C10: at a report that carries its own `version` together with a supplied
`toolVersion` override, the two `convertToSarif` variants disagree — the
map-with-counter variant emits the override (as the repository's own test
suite requires: "toolVersion parameter takes precedence over
checkstyle.version"), while the indexOf-based variant's later object spread
lets the report's version win — so the two implementations do not return
equal `SarifLog` values. -/
theorem c10_variants_disagree_on_version :
    ((convertToSarif versionClashReport (some "99.0.0")).runs.map
        (fun u => u.tool.driver.version) = [some "99.0.0"])
    ∧ ((convertToSarif2 versionClashReport (some "99.0.0")).runs.map
        (fun u => u.tool.driver.version) = [some "10.3.4"])
    ∧ convertToSarif versionClashReport (some "99.0.0")
        ≠ convertToSarif2 versionClashReport (some "99.0.0") := by
  refine ⟨by decide, by decide, by decide⟩

end CheckstyleToSarif
